import Mathlib

/-!
Verification of the starbelly subscription engine
(`src/starbelly/subscription.py`): a shallow embedding of the sync-token
codec, the subscription-manager registry, the crawl-sync producer loop and
the job-status delta encoder, with theorems checking the specification's
statements about them.

Bytes are modelled as `Nat` (values 0..255), byte strings as `List Nat`,
Python dicts as association lists, and the asyncio producer loops as fueled
state-passing functions whose suspension points are explicit.
-/

namespace Starbelly

/-- Association-list lookup, modelling a Python dict read (`d[k]` / `d.get(k)`).
Keys are unique in every map built by `setKey`, so the first match is the
binding. -/
def lookupKey {K V : Type} [DecidableEq K] : List (K × V) → K → Option V
  | [], _ => none
  | (k', v) :: rest, k => if k = k' then some v else lookupKey rest k

/-- Association-list update, modelling Python dict assignment `d[k] = v`:
replace the binding when the key is present, otherwise append it. -/
def setKey {K V : Type} [DecidableEq K] : List (K × V) → K → V → List (K × V)
  | [], k, v => [(k, v)]
  | (k', v') :: rest, k, v =>
    if k = k' then (k, v) :: rest else (k', v') :: setKey rest k v

/-- Association-list deletion, modelling Python `del d[k]`. -/
def eraseKey {K V : Type} [DecidableEq K] : List (K × V) → K → List (K × V)
  | [], _ => []
  | (k', v') :: rest, k => if k = k' then rest else (k', v') :: eraseKey rest k

theorem lookupKey_setKey_self {K V : Type} [DecidableEq K]
    (m : List (K × V)) (k : K) (v : V) : lookupKey (setKey m k v) k = some v := by
  induction m with
  | nil => simp [setKey, lookupKey]
  | cons hd rest ih =>
    obtain ⟨k', v'⟩ := hd
    by_cases h : k = k' <;> simp [setKey, lookupKey, h, ih]

theorem lookupKey_setKey_ne {K V : Type} [DecidableEq K]
    (m : List (K × V)) (k k' : K) (v : V) (h : k' ≠ k) :
    lookupKey (setKey m k v) k' = lookupKey m k' := by
  induction m with
  | nil => simp [setKey, lookupKey, h]
  | cons hd rest ih =>
    obtain ⟨k'', v''⟩ := hd
    by_cases h1 : k = k''
    · subst h1
      simp [setKey, lookupKey, h]
    · by_cases h2 : k' = k'' <;> simp [setKey, lookupKey, h1, h2, ih]

theorem lookupKey_eq_none_iff {K V : Type} [DecidableEq K]
    (m : List (K × V)) (k : K) :
    lookupKey m k = none ↔ k ∉ m.map Prod.fst := by
  induction m with
  | nil => simp [lookupKey]
  | cons hd rest ih =>
    obtain ⟨k', v'⟩ := hd
    by_cases h : k = k' <;> simp [lookupKey, h, ih]

theorem length_setKey_of_lookup_none {K V : Type} [DecidableEq K]
    (m : List (K × V)) (k : K) (v : V) (h : lookupKey m k = none) :
    (setKey m k v).length = m.length + 1 := by
  induction m with
  | nil => simp [setKey]
  | cons hd rest ih =>
    obtain ⟨k', v'⟩ := hd
    by_cases h1 : k = k'
    · simp [lookupKey, h1] at h
    · simp [lookupKey, h1] at h
      simp [setKey, h1, ih h]

/-! ## Token codec

`CrawlSyncSubscription` packs sync tokens with `TOKEN_HEADER = 'BBB'` and
`TOKEN_BODY = '!L'` (lines 130-131, 193-203, 232-250 of subscription.py). -/

/-- `struct.pack('!L', s)`: the 4 big-endian bytes of a 32-bit unsigned
integer. Callers must have `s < 2^32`; `encodeSyncToken` enforces it. -/
def packU32 (s : Nat) : List Nat :=
  [s / 16777216 % 256, s / 65536 % 256, s / 256 % 256, s % 256]

/-- The 7 token bytes produced by `_get_sync_token`: header
`struct.pack('BBB', 1, 1, 4)` followed by the packed sequence number. -/
def syncTokenBytes (s : Nat) : List Nat :=
  1 :: 1 :: 4 :: packU32 s

/-- `_get_sync_token` (lines 232-250): `struct.pack('!L', sequence)` raises
`struct.error` for values outside `[0, 2^32)`, hence the `Option`. -/
def encodeSyncToken (s : Nat) : Option (List Nat) :=
  if s < 4294967296 then some (syncTokenBytes s) else none

/-- Result of `_decode_sync_token`: the decoded sequence number, the
`InvalidSyncToken` exception, or a `struct.error` from `struct.unpack`. -/
inductive DecodeResult where
  | ok (sequence : Nat)
  | invalidSyncToken
  | unpackError
deriving DecidableEq

/-- `struct.unpack('!L', payload)` on 4 bytes: big-endian value. -/
def beU32 (payload : List Nat) : Nat :=
  payload.foldl (fun acc b => acc * 256 + b) 0

/-- `_decode_sync_token` (lines 193-203). `struct.unpack('BBB', token[:3])`
needs exactly 3 bytes, so shorter input is a `struct.error`; then the header
bytes are checked (`InvalidSyncToken` when any disagrees); then
`struct.unpack('!L', token[-4:])` reads the LAST four bytes (Python's
negative slice clamps, so a 3-byte token yields only 3 bytes here, a
`struct.error`; any longer token yields exactly 4). Total length is never
compared against `3 + payload_length`. -/
def decodeSyncToken (token : List Nat) : DecodeResult :=
  if token.length < 3 then DecodeResult.unpackError
  else if token.getD 0 0 = 1 ∧ token.getD 1 0 = 1 ∧ token.getD 2 0 = 4 then
    if (token.drop (token.length - 4)).length = 4 then
      DecodeResult.ok (beU32 (token.drop (token.length - 4)))
    else DecodeResult.unpackError
  else DecodeResult.invalidSyncToken

/-- Constructor sequence initialisation (lines 146-149): `sequence = 0`
without a token, otherwise the decoded token; a decode failure propagates
out of the constructor. -/
def initSequence : Option (List Nat) → DecodeResult
  | none => DecodeResult.ok 0
  | some t => decodeSyncToken t

theorem beU32_packU32 (s : Nat) (h : s < 4294967296) : beU32 (packU32 s) = s := by
  simp only [beU32, packU32, List.foldl]
  omega

/-- C1: encoding a sequence number `s < 2^32` yields exactly the 7 bytes
`[1, 1, 4] ++ big_endian_u32(s)`, and decoding that encoding returns `s`. -/
theorem token_round_trip (s : Nat) (h : s < 4294967296) :
    encodeSyncToken s = some (1 :: 1 :: 4 :: packU32 s) ∧
    decodeSyncToken (1 :: 1 :: 4 :: packU32 s) = DecodeResult.ok s := by
  constructor
  · simp [encodeSyncToken, syncTokenBytes, h]
  · have hc : decodeSyncToken (1 :: 1 :: 4 :: packU32 s) =
      DecodeResult.ok (beU32 (packU32 s)) := rfl
    rw [hc, beU32_packU32 s h]

/-- C1 witness: the round trip at the concrete sequence number 2. -/
theorem token_round_trip_witness :
    encodeSyncToken 2 = some (1 :: 1 :: 4 :: packU32 2) ∧
    decodeSyncToken (1 :: 1 :: 4 :: packU32 2) = DecodeResult.ok 2 :=
  token_round_trip 2 (by decide)

/-- C2 counterexample: an 8-byte token with a valid header decodes to the
big-endian value of its last 4 bytes even though its total length is not
`3 + payload_length = 7`; the claimed `InvalidSyncToken` is not raised. A
2-byte input fails with `struct.error`, not `InvalidSyncToken`. -/
theorem decode_skips_length_check :
    decodeSyncToken [1, 1, 4, 0, 0, 0, 0, 0] = DecodeResult.ok 0 ∧
    ([1, 1, 4, 0, 0, 0, 0, 0] : List Nat).length ≠ 3 + 4 ∧
    decodeSyncToken [1, 1] = DecodeResult.unpackError ∧
    DecodeResult.unpackError ≠ DecodeResult.invalidSyncToken := by
  decide

/-- C2 (amended): `decodeSyncToken` yields `InvalidSyncToken` exactly when
the input has at least 3 bytes and a header byte disagrees; inputs shorter
than 3 bytes, and 3-byte inputs with a valid header, fail with a
`struct.error` instead; and every input of length at least 4 with a valid
header is accepted regardless of total length, returning the big-endian
u32 of its last 4 bytes. -/
theorem decode_characterization (b : List Nat) :
    (decodeSyncToken b = DecodeResult.invalidSyncToken ↔
      3 ≤ b.length ∧ ¬(b.getD 0 0 = 1 ∧ b.getD 1 0 = 1 ∧ b.getD 2 0 = 4)) ∧
    (decodeSyncToken b = DecodeResult.unpackError ↔
      (b.length < 3 ∨
        (b.length = 3 ∧ b.getD 0 0 = 1 ∧ b.getD 1 0 = 1 ∧ b.getD 2 0 = 4))) ∧
    ((4 ≤ b.length ∧ b.getD 0 0 = 1 ∧ b.getD 1 0 = 1 ∧ b.getD 2 0 = 4) →
      decodeSyncToken b = DecodeResult.ok (beU32 (b.drop (b.length - 4)))) := by
  have hdl : (b.drop (b.length - 4)).length = b.length - (b.length - 4) :=
    List.length_drop _ _
  unfold decodeSyncToken
  by_cases h3 : b.length < 3
  · rw [if_pos h3]
    refine ⟨iff_of_false (by decide) ?_, iff_of_true rfl (Or.inl h3), ?_⟩
    · rintro ⟨hge, -⟩
      omega
    · rintro ⟨hge, -⟩
      omega
  · by_cases hh : b.getD 0 0 = 1 ∧ b.getD 1 0 = 1 ∧ b.getD 2 0 = 4
    · by_cases h4 : 4 ≤ b.length
      · have hlen : (b.drop (b.length - 4)).length = 4 := by omega
        rw [if_neg h3, if_pos hh, if_pos hlen]
        refine ⟨iff_of_false (by simp) ?_, iff_of_false (by simp) ?_, fun _ => rfl⟩
        · rintro ⟨-, hne⟩
          exact hne hh
        · rintro (hlt | ⟨h3', -⟩) <;> omega
      · have hlen : ¬(b.drop (b.length - 4)).length = 4 := by omega
        rw [if_neg h3, if_pos hh, if_neg hlen]
        refine ⟨iff_of_false (by decide) ?_,
          iff_of_true rfl (Or.inr ⟨by omega, hh.1, hh.2.1, hh.2.2⟩), ?_⟩
        · rintro ⟨-, hne⟩
          exact hne hh
        · rintro ⟨hge, -⟩
          omega
    · rw [if_neg h3, if_neg hh]
      refine ⟨iff_of_true rfl ⟨by omega, hh⟩, iff_of_false (by decide) ?_, ?_⟩
      · rintro (hlt | ⟨-, hv, ht, hl⟩)
        · omega
        · exact hh ⟨hv, ht, hl⟩
      · rintro ⟨-, hv, ht, hl⟩
        exact absurd ⟨hv, ht, hl⟩ hh

/-- C2 witness: a token with a wrong version byte is rejected with
`InvalidSyncToken`. -/
theorem decode_characterization_witness :
    decodeSyncToken [2, 1, 4, 0, 0, 0, 0] = DecodeResult.invalidSyncToken :=
  ((decode_characterization [2, 1, 4, 0, 0, 0, 0]).1).mpr (by decide)

/-! ## Subscription manager

`SubscriptionManager` (lines 46-116): `_closed` flag, `_closing` socket set,
and `_subscriptions`, a `defaultdict(dict)` from socket to
`{subscription_id: task}`. Sockets and subscription ids are modelled as
`Nat`; a task handle is its scheduling state. -/

/-- The state of one producer task handle held in the registry. -/
inductive TaskState where
  | running
  | done
deriving DecidableEq

/-- The fields of `SubscriptionManager` (lines 49-54). -/
structure Manager where
  closed : Bool
  closing : List Nat
  subscriptions : List (Nat × List (Nat × TaskState))
deriving DecidableEq

/-- `add` (lines 56-73): reject when the manager is closed or the socket is
being closed, otherwise store the launched task under
`_subscriptions[socket][subscription.id]` (the outer `defaultdict` creates
the socket entry on assignment). -/
def addSubscription (m : Manager) (socket : Nat) (subId : Nat) :
    Except String Manager :=
  if m.closed then Except.error "The subscription manager is closed."
  else if socket ∈ m.closing then
    Except.error "Cannot add subscription: the socket is being closed."
  else Except.ok { m with
    subscriptions := setKey m.subscriptions socket
      (setKey ((lookupKey m.subscriptions socket).getD []) subId
        TaskState.running) }

/-- `close_all` (lines 75-89): set `_closed`, collect every task in the
registry and `await cancel_futures(*sub_tasks)`. `cancel_futures` is code of
this repository that is not under src/ (imported from the package root);
modelled from the spec: it "cancels every active subscription in parallel,
and waits for all to terminate", so every collected task is finished when
`close_all` returns. The registry dict itself is never written: no socket
key and no subscription id is removed here (removal happens later in the
separately scheduled `unsubscribe` daemon tasks). -/
def closeAll (m : Manager) : Manager :=
  { closed := true
    closing := m.closing
    subscriptions := m.subscriptions.map
      (fun p => (p.1, p.2.map (fun q => (q.1, TaskState.done)))) }

/-- `unsubscribe` (lines 105-116): `self._subscriptions[socket]` on the
outer `defaultdict` inserts an empty dict when the socket is unknown; the
inner `[subscription_id]` lookup then raises `KeyError`, which is caught and
only logged. When the task exists it is cancelled (`cancel_futures`,
modelled from the spec as waiting for termination) and its id deleted from
the socket's dict; the socket key itself is never removed. -/
def unsubscribe (m : Manager) (socket : Nat) (subId : Nat) : Manager :=
  match lookupKey m.subscriptions socket with
  | none => { m with subscriptions := setKey m.subscriptions socket [] }
  | some socketSubs =>
    match lookupKey socketSubs subId with
    | none => m
    | some _ => { m with
        subscriptions := setKey m.subscriptions socket
          (eraseKey socketSubs subId) }

/-- C5 counterexample: a manager holding one running subscription still has a
non-empty registry map after `close_all` returns; `close_all` never clears
`_subscriptions`. -/
theorem closeAll_registry_not_empty :
    (closeAll
      { closed := false, closing := [],
        subscriptions := [(7, [(0, TaskState.running)])] }).subscriptions ≠ [] := by
  decide

/-- C5 (amended): after `close_all` returns the manager is marked closed, so
every subsequent `add` fails with the distinct closed-manager error; every
producer task in the registry has terminated (no producer is still
executing); but the registry map is not emptied: `close_all` leaves the
socket keys exactly as they were, and entry removal is left to the
asynchronously scheduled per-subscription `unsubscribe` callbacks. -/
theorem closeAll_postcondition (m : Manager) :
    (closeAll m).closed = true ∧
    (∀ socket subId, addSubscription (closeAll m) socket subId =
      Except.error "The subscription manager is closed.") ∧
    ((closeAll m).subscriptions.all
      (fun p => p.2.all (fun q => decide (q.2 = TaskState.done)))) = true ∧
    (closeAll m).subscriptions.map Prod.fst = m.subscriptions.map Prod.fst := by
  refine ⟨rfl, fun socket subId => rfl, ?_, ?_⟩
  · simp only [closeAll, List.all_eq_true]
    intro p hp
    simp only [List.mem_map] at hp
    obtain ⟨a, ha, rfl⟩ := hp
    simp only [List.all_eq_true, List.mem_map]
    rintro q ⟨b, hb, rfl⟩
    simp
  · simp [closeAll, List.map_map, Function.comp]

/-- C10: `unsubscribe` on a socket with no registry entry never raises, it
leaves every other socket's record unchanged and the `closed`/`closing`
state untouched, but the `defaultdict` lookup inserts an empty entry for
the socket, so the registry's key set grows by that socket. -/
theorem unsubscribe_unknown_socket (m : Manager) (socket subId : Nat)
    (h : lookupKey m.subscriptions socket = none) :
    lookupKey (unsubscribe m socket subId).subscriptions socket = some [] ∧
    (∀ s', s' ≠ socket →
      lookupKey (unsubscribe m socket subId).subscriptions s' =
        lookupKey m.subscriptions s') ∧
    (unsubscribe m socket subId).closed = m.closed ∧
    (unsubscribe m socket subId).closing = m.closing ∧
    (unsubscribe m socket subId).subscriptions.length =
      m.subscriptions.length + 1 ∧
    socket ∉ m.subscriptions.map Prod.fst ∧
    socket ∈ (unsubscribe m socket subId).subscriptions.map Prod.fst := by
  have hu : unsubscribe m socket subId =
      { m with subscriptions := setKey m.subscriptions socket [] } := by
    unfold unsubscribe
    rw [h]
  rw [hu]
  refine ⟨lookupKey_setKey_self _ _ _,
    fun s' hs' => lookupKey_setKey_ne _ _ _ _ hs', rfl, rfl,
    length_setKey_of_lookup_none _ _ _ h,
    (lookupKey_eq_none_iff _ _).mp h, ?_⟩
  have hsome : lookupKey (setKey m.subscriptions socket ([] : List (Nat × TaskState)))
      socket = some [] := lookupKey_setKey_self _ _ _
  by_contra hmem
  rw [← lookupKey_eq_none_iff] at hmem
  rw [hmem] at hsome
  cases hsome

/-- C10 witness: unsubscribing id 9 for unknown socket 3 on a fresh manager
inserts the empty entry for socket 3. -/
theorem unsubscribe_unknown_socket_witness :
    lookupKey (unsubscribe { closed := false, closing := [], subscriptions := [] }
      3 9).subscriptions 3 = some [] :=
  (unsubscribe_unknown_socket
    { closed := false, closing := [], subscriptions := [] } 3 9 rfl).1

/-! ## Crawl sync producer

`CrawlSyncSubscription.run` (lines 155-191) with `_send_item` (265-296),
`_send_complete` (258-263) and `_sync_is_complete` (312-315). The `response`
table is a list of rows in `sync_index` (ascending `insert_sequence`) order;
`_get_query` returns the rows with `insert_sequence ≥ self._sequence`. The
job's `run_state` and `item_count` are the values fetched by
`_set_initial_job_status` (the tracker listener is not fired in the
scenarios proved here, so they stay constant). Every `await` of the task is
an explicit suspension point at which cancellation may strike. -/

/-- A `response` row as consumed by the replay loop: its `insert_sequence`
and `is_success` columns (the remaining columns are copied verbatim into the
outgoing message and play no role in the control flow). -/
structure Row where
  insertSequence : Nat
  isSuccess : Bool
deriving DecidableEq

/-- A message sent on the socket by the crawl-sync producer: a `sync_item`
event carrying the row and the attached sync token, or a
`subscription_closed` event with its reason. -/
inductive Event where
  | syncItem (insertSequence : Nat) (token : List Nat)
  | subscriptionClosed (reason : String)
deriving DecidableEq

/-- Mutable task state threaded through `run`: the remaining suspension
budget (`none`: the task is never cancelled; `some k`: cancellation strikes
at the k-th next suspension point), `self._sequence`, the events sent so
far, and whether `_handle_job_status` is still registered on the tracker. -/
structure RunSt where
  budget : Option Nat
  sequence : Nat
  events : List Event
  listenerActive : Bool
deriving DecidableEq

/-- How the producer task ended: graceful completion, cancellation at a
suspension point, out of model fuel (still looping), or a `struct.error`
from packing a sequence number at or above `2^32`. -/
inductive Outcome where
  | completed
  | cancelled
  | outOfFuel
  | packError
deriving DecidableEq

/-- One suspension point (`await`): with budget `some 0` the task is
cancelled here; otherwise the budget ticks down. -/
def spend (budget : Option Nat) : Option Nat × Bool :=
  match budget with
  | none => (none, false)
  | some 0 => (some 0, true)
  | some (n + 1) => (some n, false)

/-- The `async for item in cursor` body (lines 166-178) plus `_send_item`:
each row fetch is a suspension; a gap (`insert_sequence ≠ self._sequence`)
resyncs `self._sequence` to the row's value without dropping the row; the
sequence then advances by 1; successful rows are sent with the token packed
from the post-increment sequence (the pack happens before the send
suspension), non-success rows are skipped. The empty case is the final
fetch that ends the iteration, also a suspension. Returns the state and
`some outcome` when the pass aborted (cancellation or pack error). -/
def syncRows : List Row → RunSt → RunSt × Option Outcome
  | [], st =>
    let p := spend st.budget
    if p.2 then ({ st with budget := p.1 }, some Outcome.cancelled)
    else ({ st with budget := p.1 }, none)
  | row :: rows, st =>
    let p := spend st.budget
    if p.2 then ({ st with budget := p.1 }, some Outcome.cancelled)
    else
      let st1 : RunSt := { st with budget := p.1 }
      let seq1 := (if row.insertSequence ≠ st1.sequence then row.insertSequence
        else st1.sequence) + 1
      let st2 : RunSt := { st1 with sequence := seq1 }
      if row.isSuccess then
        match encodeSyncToken seq1 with
        | none => (st2, some Outcome.packError)
        | some tok =>
          let q := spend st2.budget
          if q.2 then ({ st2 with budget := q.1 }, some Outcome.cancelled)
          else syncRows rows
            { st2 with
                budget := q.1,
                events := st2.events ++ [Event.syncItem row.insertSequence tok] }
      else syncRows rows st2

/-- `_sync_is_complete` (lines 312-315): over Python ints,
`sequence >= item_count - 1` is `item_count ≤ sequence + 1` (also when
`item_count = 0`). -/
def syncIsComplete (sequence itemCount : Nat) (runState : String) : Bool :=
  decide (itemCount ≤ sequence + 1 ∧
    (runState = "completed" ∨ runState = "cancelled"))

/-- The `while True` loop of `run` (lines 162-188). Suspensions in order:
entering `db_pool.connection()`, `query.run(conn)`, the row fetches and
sends inside `syncRows`, `cursor.close()`, then either `_send_complete`'s
socket send (the `END` event, after which the loop breaks) or the
1-second sleep before the next pass. `fuel` bounds the number of passes. -/
def runLoop (store : List Row) (runState : String) (itemCount : Nat) :
    Nat → RunSt → RunSt × Outcome
  | 0, st => (st, Outcome.outOfFuel)
  | fuel + 1, st =>
    let p := spend st.budget
    if p.2 then ({ st with budget := p.1 }, Outcome.cancelled)
    else
      let stA : RunSt := { st with budget := p.1 }
      let q := spend stA.budget
      if q.2 then ({ stA with budget := q.1 }, Outcome.cancelled)
      else
        let stB : RunSt := { stA with budget := q.1 }
        let rows := store.filter (fun r => decide (stB.sequence ≤ r.insertSequence))
        let r1 := syncRows rows stB
        match r1.2 with
        | some oc => (r1.1, oc)
        | none =>
          let c := spend r1.1.budget
          if c.2 then ({ r1.1 with budget := c.1 }, Outcome.cancelled)
          else
            let stC : RunSt := { r1.1 with budget := c.1 }
            if syncIsComplete stC.sequence itemCount runState then
              let d := spend stC.budget
              if d.2 then ({ stC with budget := d.1 }, Outcome.cancelled)
              else
                ({ stC with
                    budget := d.1,
                    events := stC.events ++ [Event.subscriptionClosed "END"] },
                  Outcome.completed)
            else
              let d := spend stC.budget
              if d.2 then ({ stC with budget := d.1 }, Outcome.cancelled)
              else runLoop store runState itemCount fuel { stC with budget := d.1 }

/-- `run` (lines 155-191): `_set_initial_job_status` (two suspensions: the
pooled connection and the query), registration of `_handle_job_status` on
the tracker, the replay loop, and — only after the loop breaks gracefully —
the deregistration `job_status_changed.cancel(...)`. A cancellation
propagates out of the loop as an exception, past the deregistration line:
there is no try/finally, so the listener stays registered on that path. -/
def runCrawlSync (fuel : Nat) (cancelAt : Option Nat) (startSeq : Nat)
    (store : List Row) (runState : String) (itemCount : Nat) :
    RunSt × Outcome :=
  let st0 : RunSt :=
    { budget := cancelAt, sequence := startSeq, events := [],
      listenerActive := false }
  let p := spend st0.budget
  if p.2 then ({ st0 with budget := p.1 }, Outcome.cancelled)
  else
    let st1 : RunSt := { st0 with budget := p.1 }
    let q := spend st1.budget
    if q.2 then ({ st1 with budget := q.1 }, Outcome.cancelled)
    else
      let st2 : RunSt := { st1 with budget := q.1, listenerActive := true }
      let r := runLoop store runState itemCount fuel st2
      match r.2 with
      | Outcome.completed => ({ r.1 with listenerActive := false }, Outcome.completed)
      | oc => (r.1, oc)

/-- A store of `n` successful items with insert sequences `0 .. n-1`. -/
def mkStore (n : Nat) : List Row :=
  (List.range n).map (fun i => { insertSequence := i, isSuccess := true })

/-- C9: one iteration of the replay loop's row handling, never cancelled.
Whether or not the row's `insert_sequence` matches the current sequence, the
row is processed (a mismatch merely resyncs `self._sequence` to the row's
value first, so the post-row sequence is always `insert_sequence + 1`, an
advance of exactly 1 from the possibly-resynced value), and a `sync_item`
is transmitted iff `is_success` holds — non-success rows advance the
sequence without being emitted. -/
theorem sync_row_step (st : RunSt) (row : Row) (rows : List Row)
    (hb : st.budget = none) (hlt : row.insertSequence + 1 < 4294967296) :
    syncRows (row :: rows) st =
      syncRows rows
        { st with
            sequence := row.insertSequence + 1,
            events := st.events ++
              (if row.isSuccess then
                [Event.syncItem row.insertSequence
                  (syncTokenBytes (row.insertSequence + 1))]
              else []) } := by
  obtain ⟨b, sq, ev, la⟩ := st
  obtain ⟨ri, rsc⟩ := row
  dsimp only at hb hlt
  subst hb
  have henc : encodeSyncToken (ri + 1) = some (syncTokenBytes (ri + 1)) := by
    simp [encodeSyncToken, hlt]
  by_cases hgap : ri = sq
  · subst hgap
    cases rsc <;> simp [syncRows, spend, henc]
  · cases rsc <;> simp [syncRows, spend, henc, hgap]

/-- C9 witness: a successful row with a sequence gap (expected 0, found 5)
is resynced, advances the sequence to 6 and is still emitted with the token
encoding 6. -/
theorem sync_row_step_witness :
    syncRows [{ insertSequence := 5, isSuccess := true }]
      { budget := none, sequence := 0, events := [], listenerActive := true } =
    syncRows []
      { budget := none, sequence := 6,
        events := [Event.syncItem 5 (syncTokenBytes 6)], listenerActive := true } := by
  have h := sync_row_step
    { budget := none, sequence := 0, events := [], listenerActive := true }
    { insertSequence := 5, isSuccess := true } [] rfl (by decide)
  simpa using h

theorem syncRows_consec (k : Nat) : ∀ (s : Nat) (ev : List Event) (la : Bool),
    s + k < 4294967296 →
    syncRows ((List.range' s k).map
        (fun i => { insertSequence := i, isSuccess := true }))
      { budget := none, sequence := s, events := ev, listenerActive := la } =
    ({ budget := none, sequence := s + k,
       events := ev ++ (List.range' s k).map
         (fun i => Event.syncItem i (syncTokenBytes (i + 1))),
       listenerActive := la }, none) := by
  induction k with
  | zero =>
    intro s ev la h
    simp [syncRows, spend]
  | succ k ih =>
    intro s ev la h
    have h1 : s + 1 < 4294967296 := by omega
    have henc : encodeSyncToken (s + 1) = some (syncTokenBytes (s + 1)) := by
      simp [encodeSyncToken, h1]
    rw [List.range'_succ, List.map_cons, List.map_cons]
    simp only [syncRows, spend, ite_self, Bool.false_eq_true, if_false, if_true,
      eq_self_iff_true]
    rw [henc]
    simp only [Bool.false_eq_true, if_false]
    rw [ih (s + 1) (ev ++ [Event.syncItem s (syncTokenBytes (s + 1))]) la (by omega)]
    have hseq : s + 1 + k = s + (k + 1) := by omega
    rw [hseq]
    simp [List.append_assoc]

theorem runLoop_completes (store : List Row) (rs : String) (ic fuel : Nat)
    (st st' : RunSt) (hb : st.budget = none)
    (hsync : syncRows
      (store.filter (fun r => decide (st.sequence ≤ r.insertSequence))) st =
      (st', none))
    (hb' : st'.budget = none)
    (hdone : syncIsComplete st'.sequence ic rs = true) :
    runLoop store rs ic (fuel + 1) st =
      ({ st' with events := st'.events ++ [Event.subscriptionClosed "END"] },
        Outcome.completed) := by
  obtain ⟨b, sq, ev, la⟩ := st
  obtain ⟨b', sq', ev', la'⟩ := st'
  dsimp only at hb hb' hsync hdone
  subst hb
  subst hb'
  simp only [runLoop, spend, Bool.false_eq_true, if_false]
  rw [hsync]
  simp [spend, hdone]

/-- C3: fresh sync end to end. On a job with `run_state = completed` and
`item_count = n` whose store holds the `n` successful items with insert
sequences `0 .. n-1`, a subscription constructed without a token (so
starting at sequence 0, as `initSequence none` states) emits, in ascending
order, exactly the `n` `sync_item` events whose tokens encode the
post-increment sequence numbers `1 .. n`, followed by exactly one
`subscription_closed` event with reason `END`, and terminates gracefully
(deregistering its tracker listener) within its first pass. -/
theorem crawl_sync_fresh (n : Nat) (h : n < 4294967296) :
    initSequence none = DecodeResult.ok 0 ∧
    runCrawlSync 1 none 0 (mkStore n) "completed" n =
    ({ budget := none, sequence := n,
       events := (List.range n).map
           (fun i => Event.syncItem i (syncTokenBytes (i + 1))) ++
         [Event.subscriptionClosed "END"],
       listenerActive := false }, Outcome.completed) := by
  refine ⟨rfl, ?_⟩
  have hms : mkStore n =
      (List.range' 0 n).map (fun i => { insertSequence := i, isSuccess := true }) := by
    rw [mkStore, List.range_eq_range']
  have hfilter : (mkStore n).filter (fun r => decide ((0 : Nat) ≤ r.insertSequence)) =
      mkStore n := by
    simp [List.filter_eq_self]
  have hsync : syncRows
      ((mkStore n).filter (fun r => decide ((0 : Nat) ≤ r.insertSequence)))
      { budget := none, sequence := 0, events := [], listenerActive := true } =
      ({ budget := none, sequence := n,
         events := (List.range n).map
           (fun i => Event.syncItem i (syncTokenBytes (i + 1))),
         listenerActive := true }, none) := by
    rw [hfilter, hms]
    have := syncRows_consec n 0 [] true (by omega)
    simpa [List.range_eq_range'] using this
  have hdone : syncIsComplete n n "completed" = true := by
    simp [syncIsComplete]
  have hloop := runLoop_completes (mkStore n) "completed" n 0
    { budget := none, sequence := 0, events := [], listenerActive := true }
    { budget := none, sequence := n,
      events := (List.range n).map (fun i => Event.syncItem i (syncTokenBytes (i + 1))),
      listenerActive := true }
    rfl hsync rfl hdone
  have hrun : runCrawlSync 1 none 0 (mkStore n) "completed" n =
      (match (runLoop (mkStore n) "completed" n 1
          { budget := none, sequence := 0, events := [], listenerActive := true }).2 with
        | Outcome.completed =>
          ({ (runLoop (mkStore n) "completed" n 1
              { budget := none, sequence := 0, events := [], listenerActive := true }).1
              with listenerActive := false }, Outcome.completed)
        | oc => ((runLoop (mkStore n) "completed" n 1
            { budget := none, sequence := 0, events := [], listenerActive := true }).1,
            oc)) := rfl
  rw [hrun, hloop]

/-- C3 witness: the spec's literal fresh-sync scenario with three items,
tokens encoding 1, 2, 3, then the `END` close. -/
theorem crawl_sync_fresh_witness :
    initSequence none = DecodeResult.ok 0 ∧
    runCrawlSync 1 none 0 (mkStore 3) "completed" 3 =
    ({ budget := none, sequence := 3,
       events := (List.range 3).map
           (fun i => Event.syncItem i (syncTokenBytes (i + 1))) ++
         [Event.subscriptionClosed "END"],
       listenerActive := false }, Outcome.completed) :=
  crawl_sync_fresh 3 (by decide)

/-- C4: a crawl-sync subscription constructed without a token starts at
sequence 0 and one constructed with a token starts at the decoded token;
with the token bytes `01 01 04 00 00 00 02` (decoding to 2) on the
completed three-item job, the producer emits exactly one `sync_item` — the
row with `insert_sequence = 2`, carrying the token that encodes 3 — and
then the `END` close. -/
theorem crawl_sync_resume :
    initSequence none = DecodeResult.ok 0 ∧
    (∀ t, initSequence (some t) = decodeSyncToken t) ∧
    decodeSyncToken [1, 1, 4, 0, 0, 0, 2] = DecodeResult.ok 2 ∧
    runCrawlSync 1 none 2 (mkStore 3) "completed" 3 =
    ({ budget := none, sequence := 3,
       events := [Event.syncItem 2 [1, 1, 4, 0, 0, 0, 3],
         Event.subscriptionClosed "END"],
       listenerActive := false }, Outcome.completed) := by
  exact ⟨rfl, fun t => rfl, by decide, by decide⟩

/-- C6: the code evaluated at the failing input. A producer over a one-item
store (`insert_sequence 0`, success) on a still-running job is cancelled at
its ninth suspension point, the inter-pass sleep. It exits without emitting
`subscription_closed(END)` — that half of the claim holds — but
`listenerActive` is still `true`: `run` has no try/finally, so the
cancellation propagates past `job_status_changed.cancel(...)` and the
tracker listener is never deregistered, contradicting the claim. -/
theorem crawl_sync_cancel_keeps_listener :
    runCrawlSync 2 (some 8) 0 [{ insertSequence := 0, isSuccess := true }]
      "running" 1 =
    ({ budget := some 0, sequence := 1,
       events := [Event.syncItem 0 [1, 1, 4, 0, 0, 0, 1]],
       listenerActive := true }, Outcome.cancelled) ∧
    (runCrawlSync 2 (some 8) 0 [{ insertSequence := 0, isSuccess := true }]
      "running" 1).1.listenerActive = true ∧
    Event.subscriptionClosed "END" ∉
      (runCrawlSync 2 (some 8) 0 [{ insertSequence := 0, isSuccess := true }]
        "running" 1).1.events := by
  decide

/-! ## Job status subscription

`JobStatusSubscription` (lines 318-399): `_status` holds the pending
`{job_id: snapshot}` map, `_last_status` the last transmitted snapshot per
job; `_send_event` (lines 360-394) walks the pending map, delta-encodes
each job against `_last_status` and then records the new snapshot there. -/

/-- A job status snapshot as delivered by the tracker. Dates are their
ISO-8601 strings, `run_state` the tracker's lower-case string, and
`http_status_counts` an association list from status code to count. -/
structure Snapshot where
  name : String
  itemCount : Nat
  httpSuccessCount : Nat
  httpErrorCount : Nat
  exceptionCount : Nat
  startedAt : String
  completedAt : String
  runState : String
  httpStatusCounts : List (Nat × Nat)
deriving DecidableEq

/-- One `pb_job` entry of the outgoing `job_list` message: a scalar field is
`some v` when `_send_event` set it and `none` when it was omitted as
unchanged; `http_status_counts` holds exactly the transmitted entries. -/
structure PbJob where
  jobId : String
  name : Option String
  itemCount : Option Nat
  httpSuccessCount : Option Nat
  httpErrorCount : Option Nat
  exceptionCount : Option Nat
  startedAt : Option String
  completedAt : Option String
  runState : Option String
  httpStatusCounts : List (Nat × Nat)
deriving DecidableEq

/-- The `merge` helper of `_send_event` (lines 365-368): set the field only
when `old.get(attr) != new.get(attr)`, where a job absent from
`_last_status` compares as the empty dict (`none`). -/
def mergeField {α : Type} [DecidableEq α] (oldv : Option α) (newv : α) :
    Option α :=
  if oldv ≠ some newv then some newv else none

/-- The loop body of `_send_event` for one `(job_id, new)` pair (lines
370-389): delta-encode every scalar field against
`old = self._last_status.get(job_id, dict())`, upper-case the changed
`run_state` for the protobuf enum, and send only the `http_status_counts`
entries whose count differs from `old_status.get(status_code)` — entries
absent from `new` are never sent (no deletions). -/
def sendEventJob (last : List (String × Snapshot)) (j : String)
    (new : Snapshot) : PbJob :=
  { jobId := j
    name := mergeField ((lookupKey last j).map Snapshot.name) new.name
    itemCount := mergeField ((lookupKey last j).map Snapshot.itemCount) new.itemCount
    httpSuccessCount := mergeField
      ((lookupKey last j).map Snapshot.httpSuccessCount) new.httpSuccessCount
    httpErrorCount := mergeField
      ((lookupKey last j).map Snapshot.httpErrorCount) new.httpErrorCount
    exceptionCount := mergeField
      ((lookupKey last j).map Snapshot.exceptionCount) new.exceptionCount
    startedAt := mergeField ((lookupKey last j).map Snapshot.startedAt) new.startedAt
    completedAt := mergeField
      ((lookupKey last j).map Snapshot.completedAt) new.completedAt
    runState :=
      if (lookupKey last j).map Snapshot.runState ≠ some new.runState then
        some new.runState.toUpper
      else none
    httpStatusCounts := new.httpStatusCounts.filter
      (fun e => decide (lookupKey
        (((lookupKey last j).map Snapshot.httpStatusCounts).getD []) e.1 ≠
          some e.2)) }

/-- The full loop of `_send_event` over the pending `_status` map: build one
`pb_job` per pending job in order and assign
`self._last_status[job_id] = new` after each, returning the outgoing
message's job list and the updated `_last_status`. -/
def sendEvent : List (String × Snapshot) → List (String × Snapshot) →
    List PbJob × List (String × Snapshot)
  | [], last => ([], last)
  | (j, new) :: rest, last =>
    let r := sendEvent rest (setKey last j new)
    (sendEventJob last j new :: r.1, r.2)

/-- What C7 states about the `pb_job` built for job `j` with pending
snapshot `new`, given `old`, the snapshot of `j` in `_last_status` at
emission time: every scalar field is included exactly when it differs from
the previous transmission (a job never transmitted compares as empty, so
everything differs), `run_state` is sent upper-cased, an
`http_status_counts` entry is included iff its count changed (and never as
a deletion), and a never-transmitted job gets its full state. -/
def pbMatches (pb : PbJob) (j : String) (new : Snapshot)
    (old : Option Snapshot) : Prop :=
  pb.jobId = j ∧
  pb.name = (if old.map Snapshot.name ≠ some new.name then some new.name
    else none) ∧
  pb.itemCount = (if old.map Snapshot.itemCount ≠ some new.itemCount then
    some new.itemCount else none) ∧
  pb.httpSuccessCount = (if old.map Snapshot.httpSuccessCount ≠
    some new.httpSuccessCount then some new.httpSuccessCount else none) ∧
  pb.httpErrorCount = (if old.map Snapshot.httpErrorCount ≠
    some new.httpErrorCount then some new.httpErrorCount else none) ∧
  pb.exceptionCount = (if old.map Snapshot.exceptionCount ≠
    some new.exceptionCount then some new.exceptionCount else none) ∧
  pb.startedAt = (if old.map Snapshot.startedAt ≠ some new.startedAt then
    some new.startedAt else none) ∧
  pb.completedAt = (if old.map Snapshot.completedAt ≠ some new.completedAt then
    some new.completedAt else none) ∧
  pb.runState = (if old.map Snapshot.runState ≠ some new.runState then
    some new.runState.toUpper else none) ∧
  (∀ c k, (c, k) ∈ pb.httpStatusCounts ↔
    ((c, k) ∈ new.httpStatusCounts ∧
      lookupKey ((old.map Snapshot.httpStatusCounts).getD []) c ≠ some k)) ∧
  (old = none →
    pb.name = some new.name ∧ pb.itemCount = some new.itemCount ∧
    pb.httpSuccessCount = some new.httpSuccessCount ∧
    pb.httpErrorCount = some new.httpErrorCount ∧
    pb.exceptionCount = some new.exceptionCount ∧
    pb.startedAt = some new.startedAt ∧
    pb.completedAt = some new.completedAt ∧
    pb.runState = some new.runState.toUpper ∧
    pb.httpStatusCounts = new.httpStatusCounts)

theorem sendEventJob_matches (last : List (String × Snapshot)) (j : String)
    (new : Snapshot) :
    pbMatches (sendEventJob last j new) j new (lookupKey last j) := by
  unfold pbMatches sendEventJob mergeField
  refine ⟨rfl, rfl, rfl, rfl, rfl, rfl, rfl, rfl, rfl, ?_, ?_⟩
  · intro c k
    simp [List.mem_filter]
  · intro hnone
    rw [hnone]
    simp [lookupKey, List.filter_eq_self]

theorem sendEvent_keeps_other_keys (pending : List (String × Snapshot))
    (j : String) (h : j ∉ pending.map Prod.fst) :
    ∀ last, lookupKey (sendEvent pending last).2 j = lookupKey last j := by
  induction pending with
  | nil => intro last; rfl
  | cons hd rest ih =>
    intro last
    obtain ⟨j', new'⟩ := hd
    simp only [List.map_cons, List.mem_cons] at h
    push_neg at h
    rw [show (sendEvent ((j', new') :: rest) last).2 =
      (sendEvent rest (setKey last j' new')).2 from rfl]
    rw [ih h.2 (setKey last j' new')]
    exact lookupKey_setKey_ne _ _ _ _ h.1

/-- C7: for every pending `(job_id, new)` pair of an emission, the outgoing
message holds a `pb_job` for that job that delta-encodes `new` against the
snapshot in `_last_status` at emission time — each scalar field included
iff it differs from the last transmission (empty when never transmitted, so
a first emission carries full state), each `http_status_counts` entry
included iff its count changed, never a deletion — and after the emission
`_last_status[job_id]` is the new snapshot. -/
theorem job_status_delta (pending last : List (String × Snapshot))
    (hnd : (pending.map Prod.fst).Nodup) (j : String) (new : Snapshot)
    (hmem : (j, new) ∈ pending) :
    ∃ pb, pb ∈ (sendEvent pending last).1 ∧
      pbMatches pb j new (lookupKey last j) ∧
      lookupKey (sendEvent pending last).2 j = some new := by
  induction pending generalizing last with
  | nil => cases hmem
  | cons hd rest ih =>
    obtain ⟨j', new'⟩ := hd
    simp only [List.map_cons, List.nodup_cons] at hnd
    rcases List.mem_cons.mp hmem with heq | hmem'
    · injection heq with hj hn
      subst hj
      subst hn
      refine ⟨sendEventJob last j new, List.mem_cons_self _ _,
        sendEventJob_matches last j new, ?_⟩
      rw [show (sendEvent ((j, new) :: rest) last).2 =
        (sendEvent rest (setKey last j new)).2 from rfl]
      rw [sendEvent_keeps_other_keys rest j hnd.1 (setKey last j new)]
      exact lookupKey_setKey_self _ _ _
    · have hj : j ∈ rest.map Prod.fst :=
        List.mem_map.mpr ⟨(j, new), hmem', rfl⟩
      have hne : j ≠ j' := by
        intro hcon
        subst hcon
        exact hnd.1 hj
      obtain ⟨pb, hpb, hmatch, hlast⟩ := ih (setKey last j' new') hnd.2 hmem'
      rw [lookupKey_setKey_ne last j' j new' hne] at hmatch
      exact ⟨pb, List.mem_cons_of_mem _ hpb, hmatch, hlast⟩

/-- A concrete snapshot for the C7 witness. -/
def snapA : Snapshot :=
  { name := "crawl", itemCount := 4, httpSuccessCount := 3,
    httpErrorCount := 1, exceptionCount := 0, startedAt := "2019-01-01T00:00:00",
    completedAt := "", runState := "running", httpStatusCounts := [(200, 3), (404, 1)] }

/-- C7 witness: the delta for a single pending job against an empty
`_last_status` (the first emission). -/
theorem job_status_delta_witness :
    ∃ pb, pb ∈ (sendEvent [("a", snapA)] []).1 ∧
      pbMatches pb "a" snapA (lookupKey ([] : List (String × Snapshot)) "a") ∧
      lookupKey (sendEvent [("a", snapA)] []).2 "a" = some snapA :=
  job_status_delta [("a", snapA)] [] (by simp) "a" snapA (by simp)

/-- Timed model of `JobStatusSubscription.run` (lines 346-358). After an
emission at time `prev`, the loop awaits
`asyncio.gather(asyncio.sleep(self._min_interval), self._status_changed.wait())`:
the gather finishes no earlier than `prev + minInterval` (the sleep, started
right after the previous emission) and no earlier than the moment the
`changed` event is set (the oracle list `cs` supplies that moment for each
iteration), and `_send_event` runs then. Returns the emission times of the
post-startup loop. -/
def emitTimes (minInterval : Nat) : Nat → List Nat → List Nat
  | _, [] => []
  | prev, c :: cs =>
    max (prev + minInterval) c :: emitTimes minInterval (max (prev + minInterval) c) cs

/-- C8: every emission of the throttled loop happens only once both the
`min_interval` sleep since the previous emission has elapsed (first
conjunct: at least `minInterval` after the previous emission, which for
`i = 0` is the optional initial emission at `prev`) and the `changed`
signal has been set (second conjunct); consecutive emissions are therefore
separated by at least `minInterval`. -/
theorem job_status_throttle (minInterval prev : Nat) (cs : List Nat) (i : Nat)
    (h : i < (emitTimes minInterval prev cs).length) :
    (prev :: emitTimes minInterval prev cs).getD i 0 + minInterval ≤
      (emitTimes minInterval prev cs).getD i 0 ∧
    cs.getD i 0 ≤ (emitTimes minInterval prev cs).getD i 0 := by
  induction cs generalizing prev i with
  | nil => simp [emitTimes] at h
  | cons c cs ih =>
    cases i with
    | zero =>
      constructor
      · exact Nat.le_max_left _ _
      · exact Nat.le_max_right _ _
    | succ i =>
      have h' : i < (emitTimes minInterval (max (prev + minInterval) c) cs).length := by
        simpa [emitTimes] using h
      simpa [emitTimes] using ih (max (prev + minInterval) c) i h'

/-- C8 witness: with `min_interval = 10`, starting after an emission at
time 0 and changes signalled at times 3 and 5, the second loop emission is
at least 10 after the first. -/
theorem job_status_throttle_witness :
    (0 :: emitTimes 10 0 [3, 5]).getD 1 0 + 10 ≤ (emitTimes 10 0 [3, 5]).getD 1 0 ∧
    ([3, 5] : List Nat).getD 1 0 ≤ (emitTimes 10 0 [3, 5]).getD 1 0 :=
  job_status_throttle 10 0 [3, 5] 1 (by decide)

end Starbelly
